import Mathlib

/-!
Shallow embedding of the fs-bq-testapp core (functions/src/utils.ts,
functions/src/monitoring.ts, functions/src/index.ts) and proofs of the
specification claims about it.

Effectful store primitives (batch commit, query page, report set/update)
are modelled by explicit oracles describing the outcome of each call, and
each embedded operation returns a trace recording the calls it made
together with its result (Except models a thrown error).
-/

/-- Outcome of one `batch.commit()` call against the document store. -/
inductive CommitOutcome (E : Type) where
  | ok : CommitOutcome E
  | fail : E → CommitOutcome E

/-- Trace of one `BatchWriter.writeBatchWithRetry` invocation: how many
commit attempts were made, the backoff delays (ms) awaited between
consecutive attempts in order, and the returned value or thrown error. -/
structure WriteTrace (E : Type) where
  commitCalls : ℕ
  waits : List ℕ
  result : Except E ℕ

/-- Loop body of `writeBatchWithRetry` (utils.ts lines 39-59).  The source
is `let attempt = 0; while (attempt < maxRetries) { try { build batch;
commit } catch { attempt++; if (attempt === maxRetries) throw error;
await backoff(2^attempt * 100) } }; return 0`.  Here `remaining`
is the fuel `maxRetries - attempt`, so the guard `attempt < maxRetries`
is `remaining > 0` and the check `attempt + 1 === maxRetries` is
`remaining = 1`; the commit of attempt number `attempt` (0-based) has the
outcome `oracle attempt`. -/
def writeBatchGo (E : Type) (docsLen : ℕ) (oracle : ℕ → CommitOutcome E) :
    ℕ → ℕ → ℕ → List ℕ → WriteTrace E
  | 0, _, calls, waits => ⟨calls, waits, Except.ok 0⟩
  | remaining + 1, attempt, calls, waits =>
    match oracle attempt with
    | CommitOutcome.ok => ⟨calls + 1, waits, Except.ok docsLen⟩
    | CommitOutcome.fail e =>
      if remaining = 0 then ⟨calls + 1, waits, Except.error e⟩
      else writeBatchGo E docsLen oracle remaining (attempt + 1) (calls + 1)
        (waits ++ [2 ^ (attempt + 1) * 100])

/-- `BatchWriter.writeBatchWithRetry(documents, batchNumber, maxRetries)`
(utils.ts lines 34-61).  Each attempt stages one fresh-identity `set` per
document and commits them as one atomic batch; `batchNumber` is accepted
but never read by the source body.  `oracle k` is the outcome of the
k-th commit call (0-based). -/
def writeBatchWithRetry {D : Type} (E : Type) (documents : List D)
    (batchNumber : ℕ) (maxRetries : ℕ) (oracle : ℕ → CommitOutcome E) :
    WriteTrace E :=
  writeBatchGo E documents.length oracle maxRetries 0 0 []

/-- Trace of one `cleanupOldDocuments` run: number of query calls issued,
number of delete-batch commits, and the accumulated `totalDeleted`. -/
structure CleanupTrace where
  queries : ℕ
  deleteCommits : ℕ
  totalDeleted : ℕ
deriving DecidableEq

/-- Loop body of `cleanupOldDocuments` (index.ts lines 95-114).  The store
is modelled by the list of page sizes successive queries would return
(`.limit(500)` pages); a query past the end of the list returns an empty
snapshot.  Source: `while (true) { get page; if (snapshot.empty) break;
delete page in one batch commit; totalDeleted += snapshot.size;
if (snapshot.size < 500) break }`. -/
def cleanupGo : List ℕ → ℕ → ℕ → ℕ → CleanupTrace
  | [], queries, commits, total => ⟨queries + 1, commits, total⟩
  | size :: rest, queries, commits, total =>
    if size = 0 then ⟨queries + 1, commits, total⟩
    else if size < 500 then ⟨queries + 1, commits + 1, total + size⟩
    else cleanupGo rest (queries + 1) (commits + 1) (total + size)

/-- `cleanupOldDocuments` against a store whose successive
timestamp-filtered queries would return pages of the given sizes. -/
def cleanupOldDocuments (pages : List ℕ) : CleanupTrace :=
  cleanupGo pages 0 0 0

/-- Field payload of the single `reportRef.set` made by
`MonitoringService.createReport` (monitoring.ts lines 116-121). -/
structure CreatePayload where
  writeTime : ℕ
  before_firestore : ℕ
  before_bigquery : ℕ
  status : String
deriving DecidableEq

/-- Field payloads of the `update` calls made by
`MonitoringService.finalizeReport` (monitoring.ts lines 142-147 and
150-157): the error payload carries the `JSON.stringify`-serialized
error. -/
inductive UpdatePayload where
  | completedUpdate (after_firestore : ℕ) (after_bigquery : ℕ)
      (status : String) (completedAt : ℕ) : UpdatePayload
  | failedUpdate (status : String) (error : String) (completedAt : ℕ) :
      UpdatePayload
deriving DecidableEq

/-- First rejection of `Promise.all([getFirestoreCount, getBigQueryCount])`:
the Firestore count error when it fails, otherwise the BigQuery count
error when that fails, otherwise none. -/
def firstFetchError (E : Type) (fs bq : Except E ℕ) : Option E :=
  match fs with
  | Except.error e => some e
  | Except.ok _ =>
    match bq with
    | Except.error e => some e
    | Except.ok _ => none

/-- Environment of one `createReport` invocation: outcomes of the two
count fetches, outcome of the `reportRef.set` call (`none` = resolves),
the `Timestamp.now()` taken at entry, and the store-assigned document id
of the fresh `monitoring` doc ref. -/
structure CreateEnv (E : Type) where
  fsCount : Except E ℕ
  bqCount : Except E ℕ
  setOutcome : Option E
  writeTime : ℕ
  refId : String

/-- Trace of one `createReport` invocation: the payloads of the `set`
calls made, in order, and the returned report id or thrown error. -/
structure CreateTrace (E : Type) where
  sets : List CreatePayload
  result : Except E String

/-- `MonitoringService.createReport` (monitoring.ts lines 104-128): fetch
both counts; on success persist `{writeTime, before_firestore,
before_bigquery, status: "pending"}` and return the new doc id; any error
in the try block is logged and rethrown unchanged by the catch. -/
def createReport (E : Type) (env : CreateEnv E) : CreateTrace E :=
  match env.fsCount, env.bqCount with
  | Except.ok a, Except.ok b =>
    let p : CreatePayload := ⟨env.writeTime, a, b, "pending"⟩
    match env.setOutcome with
    | none => ⟨[p], Except.ok env.refId⟩
    | some e => ⟨[p], Except.error e⟩
  | Except.error e, _ => ⟨[], Except.error e⟩
  | Except.ok _, Except.error e => ⟨[], Except.error e⟩

/-- Environment of one `finalizeReport` invocation: outcomes of the two
count fetches, the outcome of the k-th `update` call of this invocation
(`none` = resolves), the `Timestamp.now()` read for `completedAt`, and
the `JSON.stringify` serialization of errors. -/
structure FinalizeEnv (E : Type) where
  fsCount : Except E ℕ
  bqCount : Except E ℕ
  updateOutcome : ℕ → Option E
  nowAt : ℕ
  serialize : E → String

/-- Trace of one `finalizeReport` invocation: the payloads of the report
`update` calls made, in order, and the normal return or thrown error. -/
structure FinalizeTrace (E : Type) where
  updates : List UpdatePayload
  result : Except E Unit

/-- `MonitoringService.finalizeReport` (monitoring.ts lines 130-161):
fetch both counts and update the report to `completed` with the
after-counts; the catch block handles any error in the try block (a count
fetch rejection, or the completed-update call itself rejecting) by
issuing a `failed` update with the serialized caught error and then
rethrowing the caught error — if that failed-update call itself rejects,
its rejection propagates instead. -/
def finalizeReport (E : Type) (env : FinalizeEnv E) : FinalizeTrace E :=
  match env.fsCount, env.bqCount with
  | Except.ok a, Except.ok b =>
    let p := UpdatePayload.completedUpdate a b "completed" env.nowAt
    match env.updateOutcome 0 with
    | none => ⟨[p], Except.ok ()⟩
    | some e =>
      let q := UpdatePayload.failedUpdate "failed" (env.serialize e) env.nowAt
      match env.updateOutcome 1 with
      | none => ⟨[p, q], Except.error e⟩
      | some f => ⟨[p, q], Except.error f⟩
  | Except.error e, _ =>
    let q := UpdatePayload.failedUpdate "failed" (env.serialize e) env.nowAt
    match env.updateOutcome 0 with
    | none => ⟨[q], Except.error e⟩
    | some f => ⟨[q], Except.error f⟩
  | Except.ok _, Except.error e =>
    let q := UpdatePayload.failedUpdate "failed" (env.serialize e) env.nowAt
    match env.updateOutcome 0 with
    | none => ⟨[q], Except.error e⟩
    | some f => ⟨[q], Except.error f⟩

/-- `Math.ceil(CONFIG.write.totalDocuments / CONFIG.write.batchSize)`
(index.ts lines 44-46), as ceiling division on naturals. -/
def numberOfBatches (total batchSize : ℕ) : ℕ :=
  (total + batchSize - 1) / batchSize

/-- `docsInThisBatch` for loop index `i` (index.ts lines 49-52): the last
batch gets the remainder `total - i * batchSize`, every other batch gets
`batchSize`. -/
def docsInThisBatch (total batchSize i : ℕ) : ℕ :=
  if i = numberOfBatches total batchSize - 1 then total - i * batchSize
  else batchSize

/-- The batch sizes dispatched by `bulkWriteDocuments` (index.ts lines
48-59), in loop order. -/
def batchSizes (total batchSize : ℕ) : List ℕ :=
  (List.range (numberOfBatches total batchSize)).map
    (docsInThisBatch total batchSize)

/-- Nested object of a `TestDocument` (types.ts). -/
structure NestedObject where
  field1 : String
  field2 : ℤ

/-- Metadata block of a `TestDocument` (types.ts). -/
structure DocMetadata where
  createdAt : ℕ
  environment : String
  testRunId : String
  batchId : String

/-- `TestDocument` (types.ts); timestamps are modelled as abstract
instants. -/
structure TestDocument where
  timestamp : ℕ
  randomNumber : ℤ
  randomString : String
  nestedObject : NestedObject
  arrayField : List String
  metadata : DocMetadata

/-- The process-wide state of `DocumentGenerator`: the static `testRunId`
(utils.ts line 7), sampled once per process, plus the configured
environment tag read from CONFIG. -/
structure GeneratorSession where
  testRunId : String
  environment : String

/-- `DocumentGenerator.generateDocument` (utils.ts lines 9-28).
`rand k` is the value of the k-th `Math.random()` call of this
invocation, a rational in `[0,1)`; `randStr r` models
`r.toString(36).substring(7)`; `nowAt` models `Timestamp.now()`.
`Math.floor(Math.random() * 1000)` and `Math.floor(Math.random() * 100)`
become integer floors of the scaled rationals. -/
def generateDocument (session : GeneratorSession) (nowAt : ℕ)
    (rand : ℕ → ℚ) (randStr : ℚ → String) : TestDocument :=
  { timestamp := nowAt
    randomNumber := Int.floor (rand 0 * 1000)
    randomString := randStr (rand 1)
    nestedObject :=
      { field1 := randStr (rand 2)
        field2 := Int.floor (rand 3 * 100) }
    arrayField := (List.range 5).map (fun i => randStr (rand (4 + i)))
    metadata :=
      { createdAt := nowAt
        environment := session.environment
        testRunId := session.testRunId
        batchId := randStr (rand 9) } }

theorem writeBatchGo_commit_ok (E : Type) (L : ℕ)
    (oracle : ℕ → CommitOutcome E) (r attempt calls : ℕ) (waits : List ℕ)
    (hf : oracle attempt = CommitOutcome.ok) :
    writeBatchGo E L oracle (r + 1) attempt calls waits
      = ⟨calls + 1, waits, Except.ok L⟩ := by
  simp [writeBatchGo, hf]

theorem writeBatchGo_commit_fail_last (E : Type) (L : ℕ)
    (oracle : ℕ → CommitOutcome E) (attempt calls : ℕ) (waits : List ℕ)
    (e : E) (hf : oracle attempt = CommitOutcome.fail e) :
    writeBatchGo E L oracle 1 attempt calls waits
      = ⟨calls + 1, waits, Except.error e⟩ := by
  simp [writeBatchGo, hf]

theorem writeBatchGo_commit_fail_step (E : Type) (L : ℕ)
    (oracle : ℕ → CommitOutcome E) (r attempt calls : ℕ) (waits : List ℕ)
    (e : E) (hf : oracle attempt = CommitOutcome.fail e) (hr : r ≠ 0) :
    writeBatchGo E L oracle (r + 1) attempt calls waits
      = writeBatchGo E L oracle r (attempt + 1) (calls + 1)
          (waits ++ [2 ^ (attempt + 1) * 100]) := by
  simp [writeBatchGo, hf, hr]

theorem writeBatchGo_allFail (E : Type) (L : ℕ) (errs : ℕ → E)
    (remaining attempt calls : ℕ) (waits : List ℕ) (h : 0 < remaining) :
    (writeBatchGo E L (fun k => CommitOutcome.fail (errs k)) remaining attempt
      calls waits).commitCalls = calls + remaining
    ∧ (writeBatchGo E L (fun k => CommitOutcome.fail (errs k)) remaining attempt
      calls waits).result = Except.error (errs (attempt + remaining - 1)) := by
  induction remaining generalizing attempt calls waits with
  | zero => omega
  | succ r ih =>
    by_cases hr : r = 0
    · subst hr
      rw [writeBatchGo_commit_fail_last E L _ attempt calls waits
        (errs attempt) rfl]
      exact ⟨rfl, by simp⟩
    · have hrec := ih (attempt + 1) (calls + 1)
        (waits ++ [2 ^ (attempt + 1) * 100]) (by omega)
      rw [writeBatchGo_commit_fail_step E L _ r attempt calls waits
        (errs attempt) rfl hr]
      refine ⟨by rw [hrec.1]; omega, ?_⟩
      rw [hrec.2]
      have harg : attempt + 1 + r - 1 = attempt + (r + 1) - 1 := by omega
      rw [harg]

theorem writeBatchGo_failThenOk (E : Type) (L : ℕ) (errs : ℕ → E) (N : ℕ)
    (oracle : ℕ → CommitOutcome E)
    (hfail : ∀ k, k < N - 1 → oracle k = CommitOutcome.fail (errs k))
    (hok : oracle (N - 1) = CommitOutcome.ok)
    (remaining attempt calls : ℕ) (waits : List ℕ)
    (hsum : attempt + remaining = N) (h : 0 < remaining) :
    writeBatchGo E L oracle remaining attempt calls waits
      = ⟨calls + remaining,
         waits ++ (List.range (remaining - 1)).map
           (fun j => 2 ^ (attempt + 1 + j) * 100),
         Except.ok L⟩ := by
  induction remaining generalizing attempt calls waits with
  | zero => omega
  | succ r ih =>
    by_cases hr : r = 0
    · subst hr
      have ha : oracle attempt = CommitOutcome.ok := by
        have hA : attempt = N - 1 := by omega
        rw [hA]; exact hok
      rw [writeBatchGo_commit_ok E L oracle 0 attempt calls waits ha]
      simp
    · have hf : oracle attempt = CommitOutcome.fail (errs attempt) :=
        hfail attempt (by omega)
      have hrec := ih (attempt + 1) (calls + 1)
        (waits ++ [2 ^ (attempt + 1) * 100]) (by omega) (by omega)
      rw [writeBatchGo_commit_fail_step E L oracle r attempt calls waits
        (errs attempt) hf hr]
      rw [hrec]
      obtain ⟨s, rfl⟩ : ∃ s, r = s + 1 := ⟨r - 1, by omega⟩
      have hmap : (List.range (s + 1)).map (fun j => 2 ^ (attempt + 1 + j) * 100)
          = 2 ^ (attempt + 1) * 100
            :: (List.range s).map (fun j => 2 ^ (attempt + 1 + 1 + j) * 100) := by
        simp only [List.range_succ_eq_map, List.map_cons, List.map_map]
        have hhead : attempt + 1 + 0 = attempt + 1 := by omega
        rw [hhead]
        have htail : (List.range s).map
              ((fun j => 2 ^ (attempt + 1 + j) * 100) ∘ Nat.succ)
            = (List.range s).map (fun j => 2 ^ (attempt + 1 + 1 + j) * 100) := by
          apply List.map_congr_left
          intro a ha
          simp only [Function.comp]
          have hexp : attempt + 1 + Nat.succ a = attempt + 1 + 1 + a := by omega
          rw [hexp]
        rw [htail]
      simp only [WriteTrace.mk.injEq, Nat.add_sub_cancel]
      refine ⟨by omega, ?_, trivial⟩
      rw [List.append_assoc, hmap]
      rfl

/-- C1: for every non-empty document list and every maxRetries N ≥ 1, if
every commit attempt against the store fails, `writeBatchWithRetry`
performs exactly N commit attempts and then raises the last underlying
commit error unchanged (not wrapped). -/
theorem writeBatchWithRetry_allFail {D : Type} (E : Type)
    (documents : List D) (i N : ℕ) (errs : ℕ → E)
    (hne : documents ≠ []) (hN : 1 ≤ N) :
    (writeBatchWithRetry E documents i N
      (fun k => CommitOutcome.fail (errs k))).commitCalls = N
    ∧ (writeBatchWithRetry E documents i N
      (fun k => CommitOutcome.fail (errs k))).result
        = Except.error (errs (N - 1)) := by
  have h := writeBatchGo_allFail E documents.length errs N 0 0 [] (by omega)
  simpa [writeBatchWithRetry] using h

theorem writeBatchWithRetry_allFail_witness :
    ([()] : List Unit) ≠ [] ∧ 1 ≤ 2
    ∧ (writeBatchWithRetry ℕ ([()] : List Unit) 0 2
        (fun k => CommitOutcome.fail k)).commitCalls = 2
    ∧ (writeBatchWithRetry ℕ ([()] : List Unit) 0 2
        (fun k => CommitOutcome.fail k)).result = Except.error 1 := by
  refine ⟨by simp, by omega, ?_, ?_⟩
  · exact (writeBatchWithRetry_allFail ℕ [()] 0 2 (fun k => k)
      (by simp) (by omega)).1
  · exact (writeBatchWithRetry_allFail ℕ [()] 0 2 (fun k => k)
      (by simp) (by omega)).2

/-- C2: for every non-empty document list and maxRetries N ≥ 1, against a
commit primitive that fails on the first N-1 attempts and succeeds on
attempt N, `writeBatchWithRetry` returns the length of the document list
after exactly N commit attempts, having awaited `2 ^ attempt * 100` ms
(attempt counted from 1) between consecutive attempts. -/
theorem writeBatchWithRetry_failThenOk {D : Type} (E : Type)
    (documents : List D) (i N : ℕ) (errs : ℕ → E)
    (oracle : ℕ → CommitOutcome E)
    (hne : documents ≠ []) (hN : 1 ≤ N)
    (hfail : ∀ k, k < N - 1 → oracle k = CommitOutcome.fail (errs k))
    (hok : oracle (N - 1) = CommitOutcome.ok) :
    writeBatchWithRetry E documents i N oracle
      = ⟨N, (List.range (N - 1)).map (fun j => 2 ^ (j + 1) * 100),
          Except.ok documents.length⟩ := by
  have h := writeBatchGo_failThenOk E documents.length errs N oracle hfail hok
    N 0 0 [] (by omega) (by omega)
  have hfun : (fun j => 2 ^ (0 + 1 + j) * 100)
      = fun j : ℕ => 2 ^ (j + 1) * 100 := by
    funext j
    have hexp : 0 + 1 + j = j + 1 := by omega
    rw [hexp]
  rw [writeBatchWithRetry, h, hfun]
  simp

theorem writeBatchWithRetry_failThenOk_witness :
    ([()] : List Unit) ≠ [] ∧ 1 ≤ 2
    ∧ writeBatchWithRetry ℕ ([()] : List Unit) 0 2
        (fun k => if k = 0 then CommitOutcome.fail 7 else CommitOutcome.ok)
      = ⟨2, [200], Except.ok 1⟩ := by
  refine ⟨by simp, by omega, ?_⟩
  have h := writeBatchWithRetry_failThenOk ℕ ([()] : List Unit) 0 2
    (fun _ => 7)
    (fun k => if k = 0 then CommitOutcome.fail 7 else CommitOutcome.ok)
    (by simp) (by omega)
    (by
      intro k hk
      have hk0 : k = 0 := by omega
      subst hk0
      rfl)
    rfl
  rw [h]
  rfl

/-- C3 counterexample: with an empty document list (maxRetries 1, an
always-succeeding commit), `writeBatchWithRetry` makes one commit call —
the empty batch is still committed against the store — refuting the
claim that zero commit calls are performed. -/
theorem writeBatchWithRetry_empty_one_commit_cex :
    (writeBatchWithRetry ℕ ([] : List Unit) 0 1
      (fun _ => CommitOutcome.ok)).commitCalls = 1
    ∧ ¬ (writeBatchWithRetry ℕ ([] : List Unit) 0 1
      (fun _ => CommitOutcome.ok)).commitCalls = 0 :=
  ⟨rfl, by decide⟩

/-- C3 amended: for every batch index and maxRetries ≥ 1, with an empty
document list `writeBatchWithRetry` returns 0 — but only after one
commit call of the empty batch against the store (which must succeed),
not zero commit calls. -/
theorem writeBatchWithRetry_empty (D E : Type) (i N : ℕ)
    (oracle : ℕ → CommitOutcome E) (hN : 1 ≤ N)
    (h0 : oracle 0 = CommitOutcome.ok) :
    writeBatchWithRetry E ([] : List D) i N oracle
      = ⟨1, [], Except.ok 0⟩ := by
  obtain ⟨m, rfl⟩ : ∃ m, N = m + 1 := ⟨N - 1, by omega⟩
  rw [writeBatchWithRetry,
    writeBatchGo_commit_ok E ([] : List D).length oracle m 0 0 [] h0]
  rfl

theorem writeBatchWithRetry_empty_witness :
    1 ≤ 1
    ∧ writeBatchWithRetry ℕ ([] : List Unit) 0 1 (fun _ => CommitOutcome.ok)
      = ⟨1, [], Except.ok 0⟩ :=
  ⟨by omega,
   writeBatchWithRetry_empty Unit ℕ 0 1 (fun _ => CommitOutcome.ok)
     (by omega) rfl⟩

/-- C4 counterexample: when the successive cleanup queries would return
pages of sizes 500, 300 and 0, the loop issues only 2 query calls — the
short 300-page short-circuits it before the third (empty) query — not 3
as claimed. -/
theorem cleanup_pages_500_300_0_cex :
    (cleanupOldDocuments [500, 300, 0]).queries = 2
    ∧ ¬ (cleanupOldDocuments [500, 300, 0]).queries = 3 :=
  ⟨rfl, by decide⟩

/-- C4 amended: against pages of sizes 500, 300, 0 the cleanup loop
returns a total deleted count of 800 after exactly 2 delete-batch
commits and exactly 2 query calls; the third (empty) query is never
issued because a page shorter than 500 terminates the loop. -/
theorem cleanup_pages_500_300_0 :
    cleanupOldDocuments [500, 300, 0] = ⟨2, 2, 800⟩ := rfl

/-- C5: when the first cleanup query returns a page of size 300 (shorter
than the page size 500), the loop deletes that page in one batch commit,
returns a total of 300, and performs exactly 1 query call — it stops
without issuing a second query, whatever further pages the store could
have returned. -/
theorem cleanup_short_first_page (rest : List ℕ) :
    cleanupOldDocuments (300 :: rest) = ⟨1, 1, 300⟩ := rfl

/-- C6: for every invocation of `finalizeReport` on a created report —
whichever of the two count fetches succeed or fail, i.e. on both the
success path and the failure path — exactly one report-update call is
made, the two paths being mutually exclusive branches of a single
update, given that the update call the invocation issues itself
resolves. -/
theorem finalizeReport_single_update (E : Type) (env : FinalizeEnv E)
    (hupd : env.updateOutcome 0 = none) :
    (finalizeReport E env).updates.length = 1 := by
  rcases hfs : env.fsCount with e | a
  · simp [finalizeReport, hfs, hupd]
  · rcases hbq : env.bqCount with e | b
    · simp [finalizeReport, hfs, hbq, hupd]
    · simp [finalizeReport, hfs, hbq, hupd]

theorem finalizeReport_single_update_witness :
    (FinalizeEnv.mk (Except.ok 1) (Except.ok 2) (fun _ => none) 5
      (fun _ => "x") : FinalizeEnv ℕ).updateOutcome 0 = none
    ∧ (finalizeReport ℕ
        ⟨Except.ok 1, Except.ok 2, fun _ => none, 5,
          fun _ => "x"⟩).updates.length = 1 :=
  ⟨rfl, finalizeReport_single_update ℕ _ rfl⟩

/-- C7: when both count fetches succeed, `finalizeReport` issues exactly
one update carrying both after-counts, status "completed" and the
completion instant, and returns normally (given that this update
resolves); when either count fetch fails, it issues exactly one update
carrying status "failed", the serialized representation of the fetch
error and the completion instant, and — given that this update resolves
— re-raises the original fetch error to the caller. -/
theorem finalizeReport_outcomes (E : Type) (env : FinalizeEnv E) :
    (∀ a b, env.fsCount = Except.ok a → env.bqCount = Except.ok b →
      env.updateOutcome 0 = none →
      (finalizeReport E env).updates
          = [UpdatePayload.completedUpdate a b "completed" env.nowAt]
        ∧ (finalizeReport E env).result = Except.ok ())
    ∧ (∀ e, firstFetchError E env.fsCount env.bqCount = some e →
      (finalizeReport E env).updates
          = [UpdatePayload.failedUpdate "failed" (env.serialize e)
              env.nowAt]
        ∧ (env.updateOutcome 0 = none →
            (finalizeReport E env).result = Except.error e)) := by
  constructor
  · intro a b hfs hbq hupd
    constructor <;> simp [finalizeReport, hfs, hbq, hupd]
  · intro e hff
    rcases hfs : env.fsCount with e2 | a
    · have he : e2 = e := by simpa [firstFetchError, hfs] using hff
      subst he
      rcases hupd : env.updateOutcome 0 with _ | f
      · simp [finalizeReport, hfs, hupd]
      · refine ⟨by simp [finalizeReport, hfs, hupd], ?_⟩
        intro hcontra
        simp at hcontra
    · rcases hbq : env.bqCount with e2 | b
      · have he : e2 = e := by simpa [firstFetchError, hfs, hbq] using hff
        subst he
        rcases hupd : env.updateOutcome 0 with _ | f
        · simp [finalizeReport, hfs, hbq, hupd]
        · refine ⟨by simp [finalizeReport, hfs, hbq, hupd], ?_⟩
          intro hcontra
          simp at hcontra
      · simp [firstFetchError, hfs, hbq] at hff

theorem finalizeReport_outcomes_witness :
    ((finalizeReport ℕ
        ⟨Except.ok 3, Except.ok 4, fun _ => none, 5,
          fun _ => "x"⟩).updates
      = [UpdatePayload.completedUpdate 3 4 "completed" 5])
    ∧ (finalizeReport ℕ
        ⟨Except.ok 3, Except.ok 4, fun _ => none, 5,
          fun _ => "x"⟩).result = Except.ok ()
    ∧ ((finalizeReport ℕ
        ⟨Except.error 9, Except.ok 4, fun _ => none, 5,
          fun _ => "x"⟩).updates
      = [UpdatePayload.failedUpdate "failed" "x" 5])
    ∧ (finalizeReport ℕ
        ⟨Except.error 9, Except.ok 4, fun _ => none, 5,
          fun _ => "x"⟩).result = Except.error 9 := by
  have h1 := (finalizeReport_outcomes ℕ
    ⟨Except.ok 3, Except.ok 4, fun _ => none, 5, fun _ => "x"⟩).1
    3 4 rfl rfl rfl
  have h2 := (finalizeReport_outcomes ℕ
    ⟨Except.error 9, Except.ok 4, fun _ => none, 5, fun _ => "x"⟩).2
    9 rfl
  exact ⟨h1.1, h1.2, h2.1, h2.2 rfl⟩

/-- C8: when the primary-store count fetch returns X and the
secondary-store count fetch returns Y, `createReport` persists exactly
one new report carrying both before-counts and status "pending" and —
given that the persist call resolves — returns the new report id; when
either count fetch rejects, the persist operation is never called and
the fetch error propagates unchanged to the caller. -/
theorem createReport_outcomes (E : Type) (env : CreateEnv E) :
    (∀ X Y, env.fsCount = Except.ok X → env.bqCount = Except.ok Y →
      (createReport E env).sets = [⟨env.writeTime, X, Y, "pending"⟩]
        ∧ (env.setOutcome = none →
            (createReport E env).result = Except.ok env.refId))
    ∧ (∀ e, firstFetchError E env.fsCount env.bqCount = some e →
      (createReport E env).sets = []
        ∧ (createReport E env).result = Except.error e) := by
  constructor
  · intro X Y hfs hbq
    rcases hset : env.setOutcome with _ | f
    · simp [createReport, hfs, hbq, hset]
    · refine ⟨by simp [createReport, hfs, hbq, hset], ?_⟩
      intro hcontra
      simp at hcontra
  · intro e hff
    rcases hfs : env.fsCount with e2 | a
    · have he : e2 = e := by simpa [firstFetchError, hfs] using hff
      subst he
      simp [createReport, hfs]
    · rcases hbq : env.bqCount with e2 | b
      · have he : e2 = e := by simpa [firstFetchError, hfs, hbq] using hff
        subst he
        simp [createReport, hfs, hbq]
      · simp [firstFetchError, hfs, hbq] at hff

theorem createReport_outcomes_witness :
    ((createReport ℕ
        ⟨Except.ok 7, Except.ok 8, none, 3, "rid"⟩).sets
      = [CreatePayload.mk 3 7 8 "pending"])
    ∧ (createReport ℕ
        ⟨Except.ok 7, Except.ok 8, none, 3, "rid"⟩).result
      = Except.ok "rid"
    ∧ ((createReport ℕ
        ⟨Except.ok 7, Except.error 11, none, 3, "rid"⟩).sets = [])
    ∧ (createReport ℕ
        ⟨Except.ok 7, Except.error 11, none, 3, "rid"⟩).result
      = Except.error 11 := by
  have h1 := (createReport_outcomes ℕ
    ⟨Except.ok 7, Except.ok 8, none, 3, "rid"⟩).1 7 8 rfl rfl
  have h2 := (createReport_outcomes ℕ
    ⟨Except.ok 7, Except.error 11, none, 3, "rid"⟩).2 11 rfl
  exact ⟨h1.1, h1.2 rfl, h2.1, h2.2⟩

theorem batchSizes_split (T B m : ℕ) (hm : numberOfBatches T B = m + 1) :
    batchSizes T B = List.replicate m B ++ [T - m * B] := by
  have hfun : docsInThisBatch T B
      = fun i => if i = numberOfBatches T B - 1 then T - i * B else B := rfl
  rw [batchSizes, hfun, hm]
  rw [List.range_succ, List.map_append]
  simp only [Nat.add_sub_cancel]
  congr 1
  · rw [List.eq_replicate_iff]
    refine ⟨by simp, ?_⟩
    intro b hb
    simp only [List.mem_map, List.mem_range] at hb
    obtain ⟨i, hi, hib⟩ := hb
    rw [if_neg (by omega)] at hib
    omega
  · simp

/-- C9: for every total target T ≥ 1 and batch size B ≥ 1,
`bulkWriteDocuments` dispatches exactly `ceil(T / B)` batches — the batch
count n satisfies `B * (n - 1) < T ≤ B * n` — every batch except the last
holds exactly B documents, the last holds the remainder
`T - (n - 1) * B`, every batch size is at most B, and the batch sizes sum
to T. -/
theorem bulkWrite_batchSizes (T B : ℕ) (hT : 1 ≤ T) (hB : 1 ≤ B) :
    batchSizes T B
        = List.replicate (numberOfBatches T B - 1) B
            ++ [T - (numberOfBatches T B - 1) * B]
    ∧ B * (numberOfBatches T B - 1) < T
    ∧ T ≤ B * numberOfBatches T B
    ∧ (∀ s ∈ batchSizes T B, s ≤ B)
    ∧ (batchSizes T B).sum = T := by
  have hdm := Nat.div_add_mod (T + B - 1) B
  have hmod : (T + B - 1) % B < B := Nat.mod_lt _ (by omega)
  have hq1 : 1 ≤ numberOfBatches T B := by
    rcases Nat.eq_zero_or_pos (numberOfBatches T B) with h0 | h1
    · have h0d : (T + B - 1) / B = 0 := h0
      rw [h0d, Nat.mul_zero] at hdm
      omega
    · exact h1
  obtain ⟨m, hm⟩ : ∃ m, numberOfBatches T B = m + 1 :=
    ⟨numberOfBatches T B - 1, by omega⟩
  have hmdef : (T + B - 1) / B = m + 1 := hm
  rw [hmdef] at hdm
  have hBm : B * (m + 1) = B * m + B := by ring
  rw [hBm] at hdm
  have hlt : B * m < T := by omega
  have hle : T ≤ B * m + B := by omega
  have hc : m * B = B * m := Nat.mul_comm m B
  have hsplit := batchSizes_split T B m hm
  rw [hm]
  simp only [Nat.add_sub_cancel]
  refine ⟨hsplit, hlt, by rw [hBm]; exact hle, ?_, ?_⟩
  · intro s hs
    rw [hsplit] at hs
    simp only [List.mem_append, List.mem_replicate, List.mem_singleton]
      at hs
    rcases hs with ⟨_, rfl⟩ | rfl
    · exact le_refl _
    · omega
  · rw [hsplit, List.sum_append, List.sum_const_nat]
    simp only [List.sum_cons, List.sum_nil]
    omega

theorem bulkWrite_batchSizes_witness :
    1 ≤ 5 ∧ 1 ≤ 2
    ∧ (batchSizes 5 2
          = List.replicate (numberOfBatches 5 2 - 1) 2
              ++ [5 - (numberOfBatches 5 2 - 1) * 2]
      ∧ 2 * (numberOfBatches 5 2 - 1) < 5
      ∧ 5 ≤ 2 * numberOfBatches 5 2
      ∧ (∀ s ∈ batchSizes 5 2, s ≤ 2)
      ∧ (batchSizes 5 2).sum = 5) :=
  ⟨by omega, by omega, bulkWrite_batchSizes 5 2 (by omega) (by omega)⟩

/-- C10: modelling each `Math.random()` value as a rational in `[0,1)`,
every generated record has `randomNumber` in `[0,1000)` and
`nestedObject.field2` in `[0,100)`, its `arrayField` has exactly 5
elements, and any two records generated within the same process lifetime
(the same generator session) carry the same `metadata.testRunId`. -/
theorem generateDocument_bounds (session : GeneratorSession) (nowAt : ℕ)
    (rand : ℕ → ℚ) (randStr : ℚ → String)
    (hr : ∀ k, 0 ≤ rand k ∧ rand k < 1) :
    0 ≤ (generateDocument session nowAt rand randStr).randomNumber
    ∧ (generateDocument session nowAt rand randStr).randomNumber < 1000
    ∧ 0 ≤ (generateDocument session nowAt rand randStr).nestedObject.field2
    ∧ (generateDocument session nowAt rand randStr).nestedObject.field2
        < 100
    ∧ (generateDocument session nowAt rand randStr).arrayField.length = 5
    ∧ ∀ (nowAt2 : ℕ) (rand2 : ℕ → ℚ) (randStr2 : ℚ → String),
        (generateDocument session nowAt2 rand2 randStr2).metadata.testRunId
          = (generateDocument session nowAt rand randStr).metadata.testRunId
    := by
  obtain ⟨h0a, h0b⟩ := hr 0
  obtain ⟨h3a, h3b⟩ := hr 3
  simp only [generateDocument]
  refine ⟨?_, ?_, ?_, ?_, by simp, fun _ _ _ => by simp⟩
  · exact Int.le_floor.mpr
      (by push_cast; exact mul_nonneg h0a (by norm_num))
  · refine Int.floor_lt.mpr ?_
    have hmul := mul_lt_mul_of_pos_right h0b
      (show (0 : ℚ) < 1000 by norm_num)
    rw [one_mul] at hmul
    push_cast
    exact hmul
  · exact Int.le_floor.mpr
      (by push_cast; exact mul_nonneg h3a (by norm_num))
  · refine Int.floor_lt.mpr ?_
    have hmul := mul_lt_mul_of_pos_right h3b
      (show (0 : ℚ) < 100 by norm_num)
    rw [one_mul] at hmul
    push_cast
    exact hmul

theorem generateDocument_bounds_witness :
    (∀ k : ℕ, 0 ≤ ((fun _ => (1 : ℚ) / 2) k)
      ∧ ((fun _ => (1 : ℚ) / 2) k) < 1)
    ∧ (0 ≤ (generateDocument ⟨"run", "dev"⟩ 0 (fun _ => (1 : ℚ) / 2)
          (fun _ => "s")).randomNumber
      ∧ (generateDocument ⟨"run", "dev"⟩ 0 (fun _ => (1 : ℚ) / 2)
          (fun _ => "s")).randomNumber < 1000
      ∧ 0 ≤ (generateDocument ⟨"run", "dev"⟩ 0 (fun _ => (1 : ℚ) / 2)
          (fun _ => "s")).nestedObject.field2
      ∧ (generateDocument ⟨"run", "dev"⟩ 0 (fun _ => (1 : ℚ) / 2)
          (fun _ => "s")).nestedObject.field2 < 100
      ∧ (generateDocument ⟨"run", "dev"⟩ 0 (fun _ => (1 : ℚ) / 2)
          (fun _ => "s")).arrayField.length = 5
      ∧ ∀ (nowAt2 : ℕ) (rand2 : ℕ → ℚ) (randStr2 : ℚ → String),
          (generateDocument ⟨"run", "dev"⟩ nowAt2 rand2
            randStr2).metadata.testRunId
            = (generateDocument ⟨"run", "dev"⟩ 0 (fun _ => (1 : ℚ) / 2)
                (fun _ => "s")).metadata.testRunId) :=
  ⟨fun _ => ⟨by norm_num, by norm_num⟩,
   generateDocument_bounds ⟨"run", "dev"⟩ 0 (fun _ => (1 : ℚ) / 2)
     (fun _ => "s") (fun _ => ⟨by norm_num, by norm_num⟩)⟩
